import Mathlib

/-!
Shallow embedding of `src/api/main.py` (CareFlow demo API): in-memory slot
pool, booking dictionary and message log, with the six protected endpoints
`/slots`, `/book`, `/reschedule`, `/cancel`, `/message/send`,
`/insurance/verify`.

Modelling conventions:
* Python dicts holding the slot / booking / message records become Lean
  structures; the `BOOKINGS` dict becomes an insertion-ordered association
  list (Python 3.7+ dict semantics: assignment to an existing key replaces
  in place, to a fresh key appends).
* `API_KEY = os.getenv("API_KEY")` is an `Option String` parameter.
* Header values and optional request fields are `Option String`; Python
  truthiness of an optional string (`if date:` etc.) is `strTruthy`.
* `str(uuid.uuid4())[:8]` is modelled by passing the fresh uuid string as an
  explicit argument and taking its first 8 characters.
* `HTTPException(status_code, detail)` becomes the `HErr` error type; each
  handler returns `Except HErr <response> × St`, the second component being
  the store after the call (unchanged when the handler raises, since the
  Python code raises before any mutation).
* Python floats `100.0` / `150.0` are exact constants that are only ever
  returned, never computed with, so they are modelled as rationals.
-/

deriving instance DecidableEq for Except

namespace Careflow

/-- A slot record `{"start": ..., "end": ..., "provider": ...}`. -/
structure Slot where
  start : String
  «end» : String
  provider : String
deriving DecidableEq, Repr

/-- A booking record: `req.model_dump()` of a `BookRequest`. -/
structure Booking where
  patient_ref : String
  start : String
  «end» : String
  provider : String
  visit_type : String
deriving DecidableEq, Repr

/-- A logged message record (the dict appended to `MESSAGES`). -/
structure MsgRecord where
  id : String
  channel : String
  «to» : String
  subject : Option String
  template : Option String
  vars : Option (List (String × String))
deriving DecidableEq, Repr

/-- The in-memory stores: `SLOTS`, `BOOKINGS`, `MESSAGES`. -/
structure St where
  slots : List Slot
  bookings : List (String × Booking)
  messages : List MsgRecord
deriving DecidableEq, Repr

/-- `BookRequest` -/
structure BookRequest where
  patient_ref : String
  start : String
  «end» : String
  provider : String
  visit_type : String
deriving DecidableEq, Repr

/-- `RescheduleRequest` -/
structure RescheduleRequest where
  booking_id : String
  new_start : String
  new_end : String
deriving DecidableEq, Repr

/-- `CancelRequest` (`reason: Optional[str] = None`) -/
structure CancelRequest where
  booking_id : String
  reason : Option String
deriving DecidableEq, Repr

/-- `SendMessageRequest` -/
structure SendMessageRequest where
  channel : String
  «to» : String
  subject : Option String
  template_name : Option String
  «variables» : Option (List (String × String))
deriving DecidableEq, Repr

/-- `InsuranceVerifyRequest` (`visit_type: Optional[str] = "screening"`). -/
structure InsuranceVerifyRequest where
  payer : String
  cpt_code : String
  visit_type : Option String := some "screening"
deriving DecidableEq, Repr

/-- Error raised by a handler: `HTTPException(status_code, detail)`. -/
inductive HErr where
  | unauthorized                 -- 401, detail "Unauthorized: invalid x-api-key"
  | notFound (detail : String)   -- 404
  | badRequest (detail : String) -- 400
deriving DecidableEq, Repr

/-- Response of `POST /book` and `POST /reschedule`. -/
structure BookResp where
  booking_id : String
  status : String
  booking : Booking
deriving DecidableEq, Repr

/-- Response of `POST /cancel`. -/
structure CancelResp where
  booking_id : String
  status : String
  reason : String
deriving DecidableEq, Repr

/-- Response of `POST /message/send`. -/
structure MsgResp where
  status : String
  message_id : String
deriving DecidableEq, Repr

/-- Response of `POST /insurance/verify`. -/
structure InsResp where
  covered : Bool
  copay_estimate : ℚ
  preauth_required : Bool
  steps : List String
deriving DecidableEq, Repr

/-- Python `str.lower()`: character-wise ASCII case folding. (Lean's own
`String.toLower` is defined by well-founded recursion and does not reduce in
the kernel, so the character-map form is used.) -/
def pyLower (s : String) : String := ⟨s.data.map Char.toLower⟩

/-- Python truthiness of an `Optional[str]`: `None` and `""` are falsy. -/
def strTruthy : Option String → Bool
  | none => false
  | some s => s ≠ ""

/-- `require_key`: passes iff `x_api_key` is truthy and equals `API_KEY`
(comparing a `str` with an unset `API_KEY = None` is always unequal). -/
def requireKeyOk (apiKey hdr : Option String) : Bool :=
  strTruthy hdr && hdr == apiKey

/-- Dictionary lookup `BOOKINGS.get(k)` on the association list. -/
def lookupB (bs : List (String × Booking)) (k : String) : Option Booking :=
  (bs.find? (fun p => p.1 == k)).map Prod.snd

/-- Dictionary assignment `BOOKINGS[k] = v`: replace in place when the key is
present, append otherwise (Python 3.7+ insertion-order semantics). -/
def insertB (bs : List (String × Booking)) (k : String) (v : Booking) :
    List (String × Booking) :=
  if bs.any (fun p => p.1 == k) then
    bs.map (fun p => if p.1 == k then (k, v) else p)
  else bs ++ [(k, v)]

/-- `f"{hour:02d}"` for the seeded hours. -/
def pad2 (n : Nat) : String :=
  if n < 10 then "0" ++ toString n else toString n

/-- `seed_slots()`: for `hour in [9, 10, 11, 13, 14, 15]`, a 40-minute
"Dr. Lee" slot and a 20-minute "NP Garcia" slot starting on the hour of
`base_date` (tomorrow's ISO date, abstracted as the parameter `d`). -/
def seedSlots (d : String) : List Slot :=
  [9, 10, 11, 13, 14, 15].flatMap (fun hour =>
    [ { start := d ++ "T" ++ pad2 hour ++ ":00:00",
        «end» := d ++ "T" ++ pad2 hour ++ ":40:00",
        provider := "Dr. Lee" },
      { start := d ++ "T" ++ pad2 hour ++ ":00:00",
        «end» := d ++ "T" ++ pad2 hour ++ ":20:00",
        provider := "NP Garcia" } ])

/-- The stores at startup: seeded slots, no bookings, no messages. -/
def initState (d : String) : St :=
  { slots := seedSlots d, bookings := [], messages := [] }

/-- `GET /slots`: `require_key`, then filter by start-prefix when `date` is
truthy, then by case-insensitive provider equality when `provider` is truthy,
and return the first 20 results. -/
def list_slots (apiKey : Option String) (date provider : Option String)
    (hdr : Option String) (st : St) : Except HErr (List Slot) × St :=
  if requireKeyOk apiKey hdr then
    let r1 := if strTruthy date then
        st.slots.filter (fun s => s.start.startsWith (date.getD ""))
      else st.slots
    let r2 := if strTruthy provider then
        r1.filter (fun s => pyLower s.provider == pyLower (provider.getD ""))
      else r1
    (.ok (r2.take 20), st)
  else (.error .unauthorized, st)

/-- The slot-matching predicate used by `/book`: start, end and provider all
equal the request's. -/
def bookPred (req : BookRequest) (s : Slot) : Bool :=
  s.start == req.start && s.«end» == req.«end» && s.provider == req.provider

/-- The slot-matching predicate used by `/reschedule`: start and end equal the
requested new slot; the provider is not checked. -/
def rePred (req : RescheduleRequest) (s : Slot) : Bool :=
  s.start == req.new_start && s.«end» == req.new_end

/-- The booking record stored by `/book`: `req.model_dump()`. -/
def bookingOf (req : BookRequest) : Booking :=
  { patient_ref := req.patient_ref, start := req.start, «end» := req.«end»,
    provider := req.provider, visit_type := req.visit_type }

/-- `POST /book`: `require_key`; find the first slot whose start, end and
provider all equal the request's; 400 "Slot not available" when none;
otherwise remove that slot, store the booking under `str(uuid4())[:8]` and
return `{"booking_id": ..., "status": "created", "booking": ...}`. -/
def book (apiKey : Option String) (req : BookRequest) (uuid : String)
    (hdr : Option String) (st : St) : Except HErr BookResp × St :=
  if requireKeyOk apiKey hdr then
    match st.slots.find? (bookPred req) with
    | none => (.error (.badRequest "Slot not available"), st)
    | some m =>
      let booking_id := uuid.take 8
      let b := bookingOf req
      (.ok { booking_id := booking_id, status := "created", booking := b },
       { st with slots := st.slots.erase m,
                 bookings := insertB st.bookings booking_id b })
  else (.error .unauthorized, st)

/-- `POST /reschedule`: `require_key`; 404 when the booking id is unknown;
find the first slot matching `new_start`/`new_end` (provider not checked),
400 "New slot not available" when none; otherwise append the booking's old
start/end/provider as a slot, remove the matched slot, overwrite the
booking's start and end in place, and return the updated record. -/
def reschedule (apiKey : Option String) (req : RescheduleRequest)
    (hdr : Option String) (st : St) : Except HErr BookResp × St :=
  if requireKeyOk apiKey hdr then
    match lookupB st.bookings req.booking_id with
    | none => (.error (.notFound "Booking not found"), st)
    | some old =>
      match st.slots.find? (rePred req) with
      | none => (.error (.badRequest "New slot not available"), st)
      | some m =>
        let freed : Slot :=
          { start := old.start, «end» := old.«end», provider := old.provider }
        let slots' := (st.slots ++ [freed]).erase m
        let old' := { old with start := req.new_start, «end» := req.new_end }
        let bookings' := st.bookings.map (fun p =>
          if p.1 == req.booking_id then (p.1, old') else p)
        (.ok { booking_id := req.booking_id, status := "rescheduled", booking := old' },
         { st with slots := slots', bookings := bookings' })
  else (.error .unauthorized, st)

/-- `POST /cancel`: `require_key`; 404 when the booking id is unknown;
otherwise pop the booking, append its start/end/provider back to the slot
pool, and return status "canceled" with `req.reason or "unspecified"`. -/
def cancel (apiKey : Option String) (req : CancelRequest)
    (hdr : Option String) (st : St) : Except HErr CancelResp × St :=
  if requireKeyOk apiKey hdr then
    match lookupB st.bookings req.booking_id with
    | none => (.error (.notFound "Booking not found"), st)
    | some old =>
      let freed : Slot :=
        { start := old.start, «end» := old.«end», provider := old.provider }
      (.ok { booking_id := req.booking_id, status := "canceled",
             reason := if strTruthy req.reason then req.reason.getD "" else "unspecified" },
       { st with slots := st.slots ++ [freed],
                 bookings := st.bookings.eraseP (fun p => p.1 == req.booking_id) })
  else (.error .unauthorized, st)

/-- `POST /message/send`: `require_key`; build the record with a fresh
truncated uuid, append it to `MESSAGES` and return status "queued". -/
def send_message (apiKey : Option String) (req : SendMessageRequest)
    (uuid : String) (hdr : Option String) (st : St) : Except HErr MsgResp × St :=
  if requireKeyOk apiKey hdr then
    let record : MsgRecord :=
      { id := uuid.take 8, channel := req.channel, «to» := req.«to»,
        subject := req.subject, template := req.template_name, vars := req.«variables» }
    (.ok { status := "queued", message_id := record.id },
     { st with messages := st.messages ++ [record] })
  else (.error .unauthorized, st)

/-- `POST /insurance/verify`: `require_key`; mock logic, a pure two-way
branch on `visit_type` (an unset `visit_type` defaults to `"screening"` at
request-parsing time; an explicit `null` is `none` and is not "screening"). -/
def insurance_verify (apiKey : Option String) (req : InsuranceVerifyRequest)
    (hdr : Option String) (st : St) : Except HErr InsResp × St :=
  if requireKeyOk apiKey hdr then
    let covered := true
    let preauth_required : Bool := req.visit_type != some "screening"
    let copay_est : ℚ := if req.visit_type == some "screening" then 100 else 150
    let steps := if preauth_required then
        ["Submit indication & notes", "Get auth reference", "Validity 30 days"]
      else ["No pre-auth required"]
    (.ok { covered := covered, copay_estimate := copay_est,
           preauth_required := preauth_required, steps := steps }, st)
  else (.error .unauthorized, st)

/-! ### Generic string and list lemmas -/

/-- Left cancellation for string concatenation. -/
theorem string_append_left_cancel {d x y : String} (h : d ++ x = d ++ y) : x = y := by
  have hd : (d ++ x).data = (d ++ y).data := by rw [h]
  simp [String.data_append] at hd
  exact String.ext hd

/-- Every string starts with the empty string. -/
theorem startsWith_empty (s : String) : s.startsWith "" = true := by
  simp [String.startsWith, Substring.take, Substring.nextn, String.toSubstring,
    Substring.bsize, Substring.hasBeq, Substring.beq, String.substrEq, String.substrEq.loop]

/-- Truncating a string of length ≥ 8 to its first 8 characters gives length 8
(`str(uuid.uuid4())` has 36 characters). -/
theorem length_take_8 {s : String} (h : 8 ≤ s.length) : (s.take 8).length = 8 := by
  have h2 : 8 ≤ s.data.length := h
  rw [String.take_eq]
  show (s.data.take 8).length = 8
  rw [List.length_take]
  omega

/-- `list.remove(match)` where `match` is the first element satisfying `p`
removes exactly the first element satisfying `p`: no earlier element can be
(value-)equal to `match` because it would satisfy `p` itself. -/
theorem eraseP_eq_erase_of_find? [DecidableEq α] {p : α → Bool} {l : List α} {a : α}
    (h : l.find? p = some a) : l.eraseP p = l.erase a := by
  induction l with
  | nil => simp at h
  | cons b t ih =>
    by_cases hb : p b
    · simp [List.find?, hb] at h
      subst h
      simp [List.eraseP_cons, hb, List.erase_cons]
    · simp [List.find?, hb] at h
      have hba : b ≠ a := fun he => hb (he ▸ List.find?_some h)
      simp [List.eraseP_cons, hb, List.erase_cons, hba, ih h]

/-- A successful `find?` splits the list at the found element, everything
before it failing the predicate. -/
theorem find?_decomp {p : α → Bool} {l : List α} {a : α} (h : l.find? p = some a) :
    ∃ l1 l2, l = l1 ++ a :: l2 ∧ ∀ x ∈ l1, p x = false := by
  induction l with
  | nil => simp at h
  | cons b t ih =>
    by_cases hb : p b
    · simp [List.find?, hb] at h
      exact ⟨[], t, by simp [h], by simp⟩
    · simp [List.find?, hb] at h
      obtain ⟨l1, l2, hsplit, hfail⟩ := ih h
      refine ⟨b :: l1, l2, by simp [hsplit], ?_⟩
      intro x hx
      rcases List.mem_cons.mp hx with hxb | hxl
      · subst hxb; simpa using hb
      · exact hfail x hxl

/-! ### The seeded slot pool in flattened form -/

/-- The date-independent parts of the 12 seeded slots:
(start suffix, end suffix, provider). -/
def seedSuffixes : List (String × String × String) :=
  [ ("T09:00:00", "T09:40:00", "Dr. Lee"), ("T09:00:00", "T09:20:00", "NP Garcia"),
    ("T10:00:00", "T10:40:00", "Dr. Lee"), ("T10:00:00", "T10:20:00", "NP Garcia"),
    ("T11:00:00", "T11:40:00", "Dr. Lee"), ("T11:00:00", "T11:20:00", "NP Garcia"),
    ("T13:00:00", "T13:40:00", "Dr. Lee"), ("T13:00:00", "T13:20:00", "NP Garcia"),
    ("T14:00:00", "T14:40:00", "Dr. Lee"), ("T14:00:00", "T14:20:00", "NP Garcia"),
    ("T15:00:00", "T15:40:00", "Dr. Lee"), ("T15:00:00", "T15:20:00", "NP Garcia") ]

/-- Attach the seed date `d` to a suffix triple. -/
def mkSeedSlot (d : String) (t : String × String × String) : Slot :=
  { start := d ++ t.1, «end» := d ++ t.2.1, provider := t.2.2 }

theorem seedSlots_eq (d : String) : seedSlots d = seedSuffixes.map (mkSeedSlot d) := by
  simp only [seedSlots, seedSuffixes, mkSeedSlot, List.flatMap, List.map, pad2,
    List.flatten, String.append_assoc]
  norm_num
  and_intros <;> exact congrArg (fun z => d ++ z) (by decide)

theorem mkSeedSlot_inj {d : String} {t t' : String × String × String}
    (h : mkSeedSlot d t = mkSeedSlot d t') : t = t' := by
  obtain ⟨a, b, p⟩ := t
  obtain ⟨a', b', p'⟩ := t'
  simp only [mkSeedSlot, Slot.mk.injEq] at h
  obtain ⟨h1, h2, h3⟩ := h
  exact Prod.ext (string_append_left_cancel h1)
    (Prod.ext (string_append_left_cancel h2) h3)

/-! ### Reachable states and the start/end disjointness invariant -/

/-- The (start, end) pair of a slot. -/
def pse (s : Slot) : String × String := (s.start, s.«end»)

/-- The (start, end) pair of a stored booking. -/
def pbe (p : String × Booking) : String × String := (p.2.start, p.2.«end»)

/-- All (start, end) pairs present in the store: slot pool then bookings. -/
def sePairs (st : St) : List (String × String) :=
  st.slots.map pse ++ st.bookings.map pbe

/-- The booking identifiers, in insertion order. -/
def bkeys (st : St) : List String := st.bookings.map Prod.fst

/-- Store invariant: no (start, end) pair occurs twice across the slot pool
and the booking collection taken together, and booking ids are distinct. -/
def Inv (st : St) : Prop := (sePairs st).Nodup ∧ (bkeys st).Nodup

instance (st : St) : Decidable (Inv st) := by unfold Inv; infer_instance

/-- One successful mutating call (book / reschedule / cancel). The uuid
behind a new booking id is modelled as fresh: uuid4 collisions are not
handled by the code and are ignored here. -/
inductive Step (apiKey : Option String) : St → St → Prop where
  | ofBook {st st' : St} (req : BookRequest) (uuid : String) (hdr : Option String)
      (resp : BookResp)
      (hfresh : lookupB st.bookings (uuid.take 8) = none)
      (hok : book apiKey req uuid hdr st = (.ok resp, st')) : Step apiKey st st'
  | ofReschedule {st st' : St} (req : RescheduleRequest) (hdr : Option String)
      (resp : BookResp)
      (hok : reschedule apiKey req hdr st = (.ok resp, st')) : Step apiKey st st'
  | ofCancel {st st' : St} (req : CancelRequest) (hdr : Option String)
      (resp : CancelResp)
      (hok : cancel apiKey req hdr st = (.ok resp, st')) : Step apiKey st st'

/-- States reachable from the seeded initial store by successful calls. -/
def Reachable (apiKey : Option String) (d : String) (st : St) : Prop :=
  Relation.ReflTransGen (Step apiKey) (initState d) st

/-! ### Shape of each successful operation -/

theorem book_ok_elim {apiKey : Option String} {req : BookRequest} {uuid : String}
    {hdr : Option String} {st st' : St} {resp : BookResp}
    (h : book apiKey req uuid hdr st = (.ok resp, st')) :
    requireKeyOk apiKey hdr = true ∧
    ∃ m, st.slots.find? (bookPred req) = some m ∧
      st' = { st with slots := st.slots.erase m,
                      bookings := insertB st.bookings (uuid.take 8) (bookingOf req) } ∧
      resp = { booking_id := uuid.take 8, status := "created",
               booking := bookingOf req } := by
  by_cases hauth : requireKeyOk apiKey hdr
  · rw [book, if_pos hauth] at h
    cases hfind : st.slots.find? (bookPred req) with
    | none =>
      simp only [hfind] at h
      simp at h
    | some m =>
      simp only [hfind, Prod.mk.injEq, Except.ok.injEq] at h
      obtain ⟨hresp, hst⟩ := h
      exact ⟨hauth, m, rfl, hst.symm, hresp.symm⟩
  · simp [book, hauth] at h

theorem reschedule_ok_elim {apiKey : Option String} {req : RescheduleRequest}
    {hdr : Option String} {st st' : St} {resp : BookResp}
    (h : reschedule apiKey req hdr st = (.ok resp, st')) :
    requireKeyOk apiKey hdr = true ∧
    ∃ old, lookupB st.bookings req.booking_id = some old ∧
    ∃ m, st.slots.find? (rePred req) = some m ∧
      st' = { st with
        slots := (st.slots ++
          [({ start := old.start, «end» := old.«end», provider := old.provider } : Slot)]).erase m,
        bookings := st.bookings.map (fun p =>
          if p.1 == req.booking_id then
            (p.1, { old with start := req.new_start, «end» := req.new_end }) else p) } ∧
      resp = { booking_id := req.booking_id, status := "rescheduled",
               booking := { old with start := req.new_start, «end» := req.new_end } } := by
  by_cases hauth : requireKeyOk apiKey hdr
  · rw [reschedule, if_pos hauth] at h
    cases hlook : lookupB st.bookings req.booking_id with
    | none =>
      simp only [hlook] at h
      simp at h
    | some old =>
      cases hfind : st.slots.find? (rePred req) with
      | none =>
        simp only [hlook, hfind] at h
        simp at h
      | some m =>
        simp only [hlook, hfind, Prod.mk.injEq, Except.ok.injEq] at h
        obtain ⟨hresp, hst⟩ := h
        exact ⟨hauth, old, rfl, m, rfl, hst.symm, hresp.symm⟩
  · simp [reschedule, hauth] at h

theorem cancel_ok_elim {apiKey : Option String} {req : CancelRequest}
    {hdr : Option String} {st st' : St} {resp : CancelResp}
    (h : cancel apiKey req hdr st = (.ok resp, st')) :
    requireKeyOk apiKey hdr = true ∧
    ∃ old, lookupB st.bookings req.booking_id = some old ∧
      st' = { st with
        slots := st.slots ++
          [{ start := old.start, «end» := old.«end», provider := old.provider }],
        bookings := st.bookings.eraseP (fun p => p.1 == req.booking_id) } ∧
      resp = { booking_id := req.booking_id, status := "canceled",
               reason := if strTruthy req.reason then req.reason.getD ""
                         else "unspecified" } := by
  by_cases hauth : requireKeyOk apiKey hdr
  · rw [cancel, if_pos hauth] at h
    cases hlook : lookupB st.bookings req.booking_id with
    | none =>
      simp only [hlook] at h
      simp at h
    | some old =>
      simp only [hlook, Prod.mk.injEq, Except.ok.injEq] at h
      obtain ⟨hresp, hst⟩ := h
      exact ⟨hauth, old, rfl, hst.symm, hresp.symm⟩
  · simp [cancel, hauth] at h

/-! ### Dictionary lemmas -/

theorem lookupB_eq_none_iff {bs : List (String × Booking)} {k : String} :
    lookupB bs k = none ↔ ∀ p ∈ bs, p.1 ≠ k := by
  simp [lookupB, List.find?_eq_none]

theorem insertB_of_fresh {bs : List (String × Booking)} {k : String} (v : Booking)
    (h : lookupB bs k = none) : insertB bs k v = bs ++ [(k, v)] := by
  have h' := lookupB_eq_none_iff.mp h
  have hc : bs.any (fun p => p.1 == k) = false := by
    rw [List.any_eq_false]
    intro p hp
    simpa using h' p hp
  simp [insertB, hc]

theorem lookupB_some_find? {bs : List (String × Booking)} {k : String} {old : Booking}
    (h : lookupB bs k = some old) :
    bs.find? (fun p => p.1 == k) = some (k, old) := by
  rw [lookupB, Option.map_eq_some'] at h
  obtain ⟨⟨k0, b0⟩, hfind, hsnd⟩ := h
  have hk := List.find?_some hfind
  simp only at hk hsnd
  rw [beq_iff_eq] at hk
  subst hk
  subst hsnd
  exact hfind

/-- A found key splits the booking dictionary around its entry. -/
theorem bookings_decomp {bs : List (String × Booking)} {k : String} {old : Booking}
    (h : lookupB bs k = some old) :
    ∃ l1 l2, bs = l1 ++ (k, old) :: l2 ∧ ∀ x ∈ l1, (x.1 == k) = false :=
  find?_decomp (lookupB_some_find? h)

theorem map_id_of_pred_false {β : Type _} {f : β → β} {p : β → Bool} {l : List β}
    (hf : ∀ x, p x = false → f x = x) (hl : ∀ x ∈ l, p x = false) : l.map f = l := by
  induction l with
  | nil => rfl
  | cons a t ih =>
    simp only [List.map_cons, hf a (hl a (by simp)),
      ih (fun x hx => hl x (by simp [hx]))]

/-- In-place update of a dictionary with distinct keys rewrites exactly the
entry at the looked-up key. -/
theorem map_replace_eq {k : String} {old old' : Booking}
    {l1 l2 : List (String × Booking)}
    (hl1 : ∀ x ∈ l1, (x.1 == k) = false)
    (hl2 : ∀ x ∈ l2, (x.1 == k) = false) :
    (l1 ++ (k, old) :: l2).map (fun p => if p.1 == k then (p.1, old') else p)
      = l1 ++ (k, old') :: l2 := by
  rw [List.map_append, List.map_cons]
  rw [map_id_of_pred_false (p := fun p => p.1 == k) (fun x hx => by simp [hx]) hl1]
  rw [map_id_of_pred_false (p := fun p => p.1 == k) (fun x hx => by simp [hx]) hl2]
  simp

/-- Erasing the first element satisfying `p` from a list split at that
element. -/
theorem eraseP_decomp {β : Type _} {p : β → Bool} {l1 l2 : List β} {a : β}
    (ha : p a = true) (hl1 : ∀ x ∈ l1, p x = false) :
    (l1 ++ a :: l2).eraseP p = l1 ++ l2 := by
  induction l1 with
  | nil => simp [List.eraseP_cons, ha]
  | cons b t ih =>
    have hb := hl1 b (by simp)
    simp [List.eraseP_cons, hb, ih (fun x hx => hl1 x (by simp [hx]))]

/-- The second half of a key-split dictionary with distinct keys does not
contain the key again. -/
theorem l2_keys_false {l1 l2 : List (String × Booking)} {k : String} {old : Booking}
    (hkeys : ((l1 ++ (k, old) :: l2).map Prod.fst).Nodup) :
    ∀ x ∈ l2, (x.1 == k) = false := by
  intro x hx
  simp only [List.map_append, List.map_cons] at hkeys
  have hnd := (List.nodup_append.mp hkeys).2.1
  rw [List.nodup_cons] at hnd
  have hkk : k ∉ l2.map Prod.fst := hnd.1
  rw [beq_eq_false_iff_ne]
  intro he
  exact hkk (he ▸ List.mem_map_of_mem Prod.fst hx)

/-- The in-place booking update preserves the key sequence. -/
theorem bkeys_replace (k : String) (old' : Booking) (bs : List (String × Booking)) :
    (bs.map (fun p => if p.1 == k then (p.1, old') else p)).map Prod.fst
      = bs.map Prod.fst := by
  induction bs with
  | nil => rfl
  | cons a t ih =>
    simp only [List.map_cons, ih]
    congr 1
    by_cases ha : (a.1 == k) = true
    · rw [if_pos ha]
    · rw [if_neg ha]

/-! ### Each successful operation permutes the multiset of (start, end)
pairs of the store -/

theorem sePairs_book_perm {st : St} {m : Slot} {id : String} {b : Booking}
    (hm : m ∈ st.slots)
    (hpair : pse m = (b.start, b.«end»))
    (hfresh : lookupB st.bookings id = none) :
    List.Perm
      (sePairs { st with slots := st.slots.erase m,
                         bookings := insertB st.bookings id b })
      (sePairs st) := by
  rw [sePairs, sePairs, insertB_of_fresh b hfresh]
  simp only [List.map_append, List.map_cons, List.map_nil]
  rw [← Multiset.coe_eq_coe]
  have hm1 : (st.slots.map pse : Multiset (String × String))
      = pse m ::ₘ ((st.slots.erase m).map pse : Multiset (String × String)) := by
    rw [Multiset.cons_coe, Multiset.coe_eq_coe]
    exact List.Perm.map pse (List.perm_cons_erase hm)
  have hx : pbe (id, b) = pse m := by rw [pbe, hpair]
  simp only [← Multiset.coe_add, ← Multiset.cons_coe, hm1, hx,
    ← Multiset.singleton_add, Multiset.coe_nil]
  abel

theorem sePairs_cancel_perm {st : St} {k : String} {old : Booking}
    (hlook : lookupB st.bookings k = some old) :
    List.Perm
      (sePairs { st with
        slots := st.slots ++
          [({ start := old.start, «end» := old.«end», provider := old.provider } : Slot)],
        bookings := st.bookings.eraseP (fun p => p.1 == k) })
      (sePairs st) := by
  obtain ⟨l1, l2, hsplit, hl1⟩ := bookings_decomp hlook
  have herase : st.bookings.eraseP (fun p => p.1 == k) = l1 ++ l2 := by
    rw [hsplit]
    exact eraseP_decomp (by simp) hl1
  rw [sePairs, sePairs, herase, hsplit]
  simp only [List.map_append, List.map_cons, List.map_nil]
  rw [← Multiset.coe_eq_coe]
  have hx : pse ({ start := old.start, «end» := old.«end», provider := old.provider } : Slot) = pbe (k, old) := by
    rw [pse, pbe]
  simp only [← Multiset.coe_add, ← Multiset.cons_coe, hx,
    ← Multiset.singleton_add, Multiset.coe_nil]
  abel

theorem sePairs_reschedule_perm {st : St} {k : String} {old old' : Booking} {m : Slot}
    (hlook : lookupB st.bookings k = some old)
    (hkeys : (bkeys st).Nodup)
    (hm : m ∈ st.slots)
    (hpair : pse m = (old'.start, old'.«end»)) :
    List.Perm
      (sePairs { st with
        slots := (st.slots ++ [({ start := old.start, «end» := old.«end», provider := old.provider } : Slot)]).erase m,
        bookings := st.bookings.map (fun p => if p.1 == k then (p.1, old') else p) })
      (sePairs st) := by
  obtain ⟨l1, l2, hsplit, hl1⟩ := bookings_decomp hlook
  have hl2 : ∀ x ∈ l2, (x.1 == k) = false := l2_keys_false (by rw [← hsplit]; exact hkeys)
  have hrepl : st.bookings.map (fun p => if p.1 == k then (p.1, old') else p)
      = l1 ++ (k, old') :: l2 := by
    rw [hsplit]
    exact map_replace_eq hl1 hl2
  have hslots : (st.slots ++ [({ start := old.start, «end» := old.«end», provider := old.provider } : Slot)]).erase m
      = st.slots.erase m ++ [({ start := old.start, «end» := old.«end», provider := old.provider } : Slot)] :=
    List.erase_append_left _ hm
  rw [sePairs, sePairs, hrepl, hslots]
  rw [hsplit]
  simp only [List.map_append, List.map_cons, List.map_nil]
  rw [← Multiset.coe_eq_coe]
  have hm1 : (st.slots.map pse : Multiset (String × String))
      = pse m ::ₘ ((st.slots.erase m).map pse : Multiset (String × String)) := by
    rw [Multiset.cons_coe, Multiset.coe_eq_coe]
    exact List.Perm.map pse (List.perm_cons_erase hm)
  have hx1 : pse ({ start := old.start, «end» := old.«end», provider := old.provider } : Slot) = pbe (k, old) := by
    rw [pse, pbe]
  have hx2 : pbe (k, old') = pse m := by rw [pbe, hpair]
  simp only [← Multiset.coe_add, ← Multiset.cons_coe, hm1, hx1, hx2,
    ← Multiset.singleton_add, Multiset.coe_nil]
  abel

/-! ### The invariant holds initially and is preserved -/

theorem inv_init (d : String) : Inv (initState d) := by
  constructor
  · rw [sePairs]
    simp only [initState, List.map_nil, List.append_nil]
    rw [seedSlots_eq, List.map_map]
    have hcomp : (pse ∘ mkSeedSlot d)
        = (fun q : String × String => (d ++ q.1, d ++ q.2))
          ∘ (fun t : String × String × String => (t.1, t.2.1)) := rfl
    rw [hcomp, ← List.map_map]
    apply List.Nodup.map
    · intro a b hab
      simp only [Prod.mk.injEq] at hab
      exact Prod.ext (string_append_left_cancel hab.1)
        (string_append_left_cancel hab.2)
    · decide
  · simp [bkeys, initState]

theorem nodup_keys_insert {bs : List (String × Booking)} {k : String} (v : Booking)
    (hfresh : lookupB bs k = none) (hk : (bs.map Prod.fst).Nodup) :
    ((insertB bs k v).map Prod.fst).Nodup := by
  rw [insertB_of_fresh v hfresh, List.map_append]
  rw [List.nodup_append]
  refine ⟨hk, by simp, ?_⟩
  intro x hx hx2
  simp only [List.map_cons, List.map_nil, List.mem_singleton] at hx2
  subst hx2
  obtain ⟨pr, hpr, hfst⟩ := List.mem_map.mp hx
  exact lookupB_eq_none_iff.mp hfresh pr hpr hfst

set_option maxHeartbeats 1600000 in
theorem inv_step {apiKey : Option String} {st st' : St} (h : Step apiKey st st')
    (hinv : Inv st) : Inv st' := by
  obtain ⟨hp, hk⟩ := hinv
  cases h with
  | ofBook req uuid hdr resp hfresh hok =>
    obtain ⟨hauth, m, hfind, hst', hresp⟩ := book_ok_elim hok
    subst hst'
    have hm : m ∈ st.slots := List.mem_of_find?_eq_some hfind
    have hpred := List.find?_some hfind
    rw [bookPred] at hpred
    simp only [Bool.and_eq_true, beq_iff_eq] at hpred
    have hpair : pse m = ((bookingOf req).start, (bookingOf req).«end») := by
      rw [pse, bookingOf]
      simp [hpred.1.1, hpred.1.2]
    constructor
    · exact ((sePairs_book_perm hm hpair hfresh).symm.nodup) hp
    · rw [bkeys]
      exact nodup_keys_insert _ hfresh hk
  | ofReschedule req hdr resp hok =>
    obtain ⟨hauth, old, hlook, m, hfind, hst', hresp⟩ := reschedule_ok_elim hok
    subst hst'
    have hm : m ∈ st.slots := List.mem_of_find?_eq_some hfind
    have hpred := List.find?_some hfind
    rw [rePred] at hpred
    simp only [Bool.and_eq_true, beq_iff_eq] at hpred
    have hpair : pse m = (({ old with start := req.new_start, «end» := req.new_end } : Booking).start,
        ({ old with start := req.new_start, «end» := req.new_end } : Booking).«end») := by
      rw [pse]
      simp [hpred.1, hpred.2]
    constructor
    · exact ((sePairs_reschedule_perm hlook hk hm hpair).symm.nodup) hp
    · rw [bkeys]
      simp only [bkeys_replace]
      exact hk
  | ofCancel req hdr resp hok =>
    obtain ⟨hauth, old, hlook, hst', hresp⟩ := cancel_ok_elim hok
    subst hst'
    constructor
    · exact ((sePairs_cancel_perm hlook).symm.nodup) hp
    · rw [bkeys]
      exact hk.sublist (List.Sublist.map Prod.fst (List.eraseP_sublist _))

theorem reachable_inv {apiKey : Option String} {d : String} {st : St}
    (h : Reachable apiKey d st) : Inv st := by
  induction h with
  | refl => exact inv_init d
  | tail hsteps hstep ih => exact inv_step hstep ih

/-! ### Concrete data used by the claim witnesses -/

/-- A concrete seed date standing in for "tomorrow". -/
def wD : String := "2026-01-01"

/-- A concrete configured `API_KEY`, also sent as the header. -/
def wKey : Option String := some "secret"

/-- A concrete uuid4 rendering (36 characters). -/
def wUuid : String := "123e4567-e89b-12d3-a456-426614174000"

/-- A second concrete uuid. -/
def wUuid2 : String := "00112233-4455-6677-8899-aabbccddeeff"

/-- A booking request for the seeded NP Garcia 09:00 slot. -/
def wReqG : BookRequest :=
  { patient_ref := "p1", start := "2026-01-01T09:00:00",
    «end» := "2026-01-01T09:20:00", provider := "NP Garcia",
    visit_type := "checkup" }

/-- The store after booking `wReqG` from the seeded store. -/
def wSt1 : St := (book wKey wReqG wUuid wKey (initState wD)).2

/-! ### C7: unauthorized requests fail and mutate nothing -/

/-- C7: for every protected operation (list slots, book, reschedule, cancel,
send message, verify insurance) and every state, if the API-key header is
absent or differs from the configured secret, the operation returns the
401 unauthorized error and the slot pool, booking collection and message log
are unchanged (the whole store is returned as it was). -/
theorem C7_unauthorized_no_mutation {apiKey hdr : Option String}
    (h : hdr = none ∨ hdr ≠ apiKey) :
    ∀ st : St,
      (∀ date provider, list_slots apiKey date provider hdr st = (.error .unauthorized, st)) ∧
      (∀ req uuid, book apiKey req uuid hdr st = (.error .unauthorized, st)) ∧
      (∀ req, reschedule apiKey req hdr st = (.error .unauthorized, st)) ∧
      (∀ req, cancel apiKey req hdr st = (.error .unauthorized, st)) ∧
      (∀ req uuid, send_message apiKey req uuid hdr st = (.error .unauthorized, st)) ∧
      (∀ req, insurance_verify apiKey req hdr st = (.error .unauthorized, st)) := by
  have hauth : requireKeyOk apiKey hdr = false := by
    rcases h with h | h
    · subst h
      rfl
    · rw [requireKeyOk]
      have : (hdr == apiKey) = false := by
        rw [beq_eq_false_iff_ne]
        exact h
      simp [this]
  intro st
  refine ⟨?_, ?_, ?_, ?_, ?_, ?_⟩ <;> intros <;>
    simp [list_slots, book, reschedule, cancel, send_message, insurance_verify, hauth]

/-- Witness for C7 at a concrete wrong header, exercised on `book`. -/
theorem C7_witness :
    book (some "secret") wReqG wUuid (some "wrong") (initState wD)
      = (.error .unauthorized, initState wD) :=
  ((C7_unauthorized_no_mutation (Or.inr (by decide)) (initState wD)).2.1) wReqG wUuid

/-! ### C8: failed reschedules change nothing -/

/-- C8: a reschedule that fails — unknown booking id (404 not found) or no
slot matching the new start/end (400 client error) — returns the
corresponding error and leaves the whole store (booking collection, the
targeted booking's fields, and the slot pool) unchanged. -/
theorem C8_reschedule_failure_no_mutation {apiKey hdr : Option String}
    (req : RescheduleRequest) (st : St)
    (hauth : requireKeyOk apiKey hdr = true) :
    (lookupB st.bookings req.booking_id = none →
      reschedule apiKey req hdr st = (.error (.notFound "Booking not found"), st)) ∧
    (∀ old, lookupB st.bookings req.booking_id = some old →
      st.slots.find? (rePred req) = none →
      reschedule apiKey req hdr st = (.error (.badRequest "New slot not available"), st)) := by
  constructor
  · intro hnone
    rw [reschedule, if_pos hauth]
    simp only [hnone]
  · intro old hlook hfind
    rw [reschedule, if_pos hauth]
    simp only [hlook, hfind]

/-- A reschedule request naming an unknown booking id. -/
def wReUnknown : RescheduleRequest :=
  { booking_id := "deadbeef", new_start := "x", new_end := "y" }

/-- A reschedule of the `wSt1` booking to a slot that is not in the pool. -/
def wReNoSlot : RescheduleRequest :=
  { booking_id := wUuid.take 8, new_start := "2026-01-01T23:00:00",
    new_end := "2026-01-01T23:40:00" }

/-- Witness for C8: rescheduling an unknown booking id on the seeded store,
and rescheduling the one existing booking to a nonexistent slot. -/
theorem C8_witness :
    reschedule wKey wReUnknown wKey (initState wD)
      = (.error (.notFound "Booking not found"), initState wD) ∧
    reschedule wKey wReNoSlot wKey wSt1
      = (.error (.badRequest "New slot not available"), wSt1) :=
  ⟨(C8_reschedule_failure_no_mutation _ _ (by decide)).1 (by decide),
   (C8_reschedule_failure_no_mutation _ _ (by decide)).2
     (bookingOf wReqG) (by decide) (by decide)⟩

/-! ### C6: insurance verification is a pure function of visit type -/

/-- C6: insurance verification reads and writes no state and is a pure
two-way branch on `visit_type`: exactly "screening" gives covered, no
pre-auth, copay 100.0 and the single step; anything else gives covered,
pre-auth required, copay 150.0 and the fixed three steps; an omitted
`visit_type` defaults to "screening" at request-construction time. -/
theorem C6_insurance_pure {apiKey hdr : Option String}
    (req : InsuranceVerifyRequest) (st : St)
    (hauth : requireKeyOk apiKey hdr = true) :
    (insurance_verify apiKey req hdr st).2 = st ∧
    (∀ st2 : St, (insurance_verify apiKey req hdr st2).1
      = (insurance_verify apiKey req hdr st).1) ∧
    (insurance_verify apiKey req hdr st).1 =
      (if req.visit_type = some "screening" then
        .ok { covered := true, copay_estimate := 100, preauth_required := false,
              steps := ["No pre-auth required"] }
       else
        .ok { covered := true, copay_estimate := 150, preauth_required := true,
              steps := ["Submit indication & notes", "Get auth reference",
                        "Validity 30 days"] }) ∧
    (∀ p c, ({ payer := p, cpt_code := c } : InsuranceVerifyRequest).visit_type
      = some "screening") := by
  refine ⟨by simp [insurance_verify, hauth], ?_, ?_, fun p c => rfl⟩
  · intro st2
    simp [insurance_verify, hauth]
  · by_cases hv : req.visit_type = some "screening"
    · simp [insurance_verify, hauth, hv]
    · have hb : (req.visit_type == some "screening") = false := by
        rw [beq_eq_false_iff_ne]
        exact hv
      simp [insurance_verify, hauth, hv, hb]

/-- Witness for C6 at visit type "screening" and at "consult". -/
theorem C6_witness :
    (insurance_verify wKey { payer := "acme", cpt_code := "77067" } wKey (initState wD)).1
      = .ok { covered := true, copay_estimate := 100, preauth_required := false,
              steps := ["No pre-auth required"] } := by
  rw [(C6_insurance_pure { payer := "acme", cpt_code := "77067" } (initState wD)
    (by decide)).2.2.1]
  decide

/-! ### C4: cancel -/

/-- After popping a key from a dictionary with distinct keys, looking the key
up again fails. -/
theorem lookupB_eraseP_none {bs : List (String × Booking)} {k : String} {old : Booking}
    (hlook : lookupB bs k = some old) (hkeys : (bs.map Prod.fst).Nodup) :
    lookupB (bs.eraseP (fun p => p.1 == k)) k = none := by
  obtain ⟨l1, l2, hsplit, hl1⟩ := bookings_decomp hlook
  subst hsplit
  rw [eraseP_decomp (by simp) hl1]
  rw [lookupB_eq_none_iff]
  intro p hp
  rcases List.mem_append.mp hp with h1 | h2
  · have := hl1 p h1
    simpa using this
  · have := l2_keys_false hkeys p h2
    simpa using this

/-- The cancellation reason exactly as the claim words it: the given reason,
or "unspecified" when none was given. -/
def reasonClaim : Option String → String
  | some r => r
  | none => "unspecified"

/-- A cancel request giving the (empty-string) reason explicitly. -/
def wCancelEmpty : CancelRequest :=
  { booking_id := wUuid.take 8, reason := some "" }

/-- C4 counterexample: cancelling with an explicitly given empty-string
reason responds with "unspecified", not with the given reason as the claim
states. -/
theorem C4_counterexample :
    (cancel wKey wCancelEmpty wKey wSt1).1
      = .ok { booking_id := wUuid.take 8, status := "canceled", reason := "unspecified" }
    ∧ reasonClaim wCancelEmpty.reason ≠ "unspecified" := by decide

/-- C4 (amended): cancel of an unknown id fails 404 and changes nothing; a
known id removes the booking, appends its slot triple back to the pool, and
responds with the id, status "canceled" and the given reason — except that a
reason that is absent OR the empty string becomes "unspecified"; a second
cancel of the same id then fails 404 (given distinct stored keys). -/
theorem C4_cancel {apiKey hdr : Option String} (req : CancelRequest) (st : St)
    (hauth : requireKeyOk apiKey hdr = true)
    (hkeys : (bkeys st).Nodup) :
    (lookupB st.bookings req.booking_id = none →
      cancel apiKey req hdr st = (.error (.notFound "Booking not found"), st)) ∧
    (∀ old, lookupB st.bookings req.booking_id = some old →
      cancel apiKey req hdr st =
        (.ok { booking_id := req.booking_id, status := "canceled",
               reason := match req.reason with
                         | none => "unspecified"
                         | some r => if r = "" then "unspecified" else r },
         { st with
           slots := st.slots ++ [({ start := old.start, «end» := old.«end», provider := old.provider } : Slot)],
           bookings := st.bookings.eraseP (fun p => p.1 == req.booking_id) }) ∧
      (∀ (req2 : CancelRequest) (hdr2 : Option String),
        requireKeyOk apiKey hdr2 = true →
        req2.booking_id = req.booking_id →
        (cancel apiKey req2 hdr2 (cancel apiKey req hdr st).2).1
          = .error (.notFound "Booking not found"))) := by
  constructor
  · intro hnone
    rw [cancel, if_pos hauth]
    simp only [hnone]
  · intro old hlook
    have hreason : (if strTruthy req.reason then req.reason.getD "" else "unspecified")
        = (match req.reason with
           | none => "unspecified"
           | some r => if r = "" then "unspecified" else r) := by
      cases hr : req.reason with
      | none => rfl
      | some r =>
        by_cases he : r = ""
        · subst he
          rfl
        · simp [strTruthy, he]
    have hc : cancel apiKey req hdr st =
        (.ok { booking_id := req.booking_id, status := "canceled",
               reason := match req.reason with
                         | none => "unspecified"
                         | some r => if r = "" then "unspecified" else r },
         { st with
           slots := st.slots ++ [({ start := old.start, «end» := old.«end», provider := old.provider } : Slot)],
           bookings := st.bookings.eraseP (fun p => p.1 == req.booking_id) }) := by
      rw [cancel, if_pos hauth]
      simp only [hlook]
      rw [hreason]
    refine ⟨hc, ?_⟩
    intro req2 hdr2 hauth2 hid
    rw [hc]
    rw [cancel, if_pos hauth2]
    have hnone2 : lookupB
        (st.bookings.eraseP (fun p => p.1 == req.booking_id)) req2.booking_id = none := by
      rw [hid]
      exact lookupB_eraseP_none hlook hkeys
    simp only [hnone2]

/-- A cancel request with a non-empty reason. -/
def wCancelNote : CancelRequest :=
  { booking_id := wUuid.take 8, reason := some "patient request" }

/-- Witness for C4: cancelling the `wSt1` booking with a non-empty reason,
then cancelling it again. -/
theorem C4_witness :
    (cancel wKey wCancelNote wKey wSt1).1
      = .ok { booking_id := wUuid.take 8, status := "canceled", reason := "patient request" }
    ∧ (cancel wKey wCancelNote wKey (cancel wKey wCancelNote wKey wSt1).2).1
      = .error (.notFound "Booking not found") := by
  have h := (@C4_cancel wKey wKey wCancelNote wSt1 (by decide) (by decide)).2
    (bookingOf wReqG) (by decide)
  constructor
  · rw [h.1]
    decide
  · exact h.2 wCancelNote wKey (by decide) rfl

/-! ### C2: successful reschedule -/

/-- C2: a successful reschedule removes the first slot matching the new
start/end regardless of its provider, appends a slot with the booking's old
start/end/provider to the end of the pool, overwrites the booking's start
and end in place keeping its provider and identifier, and responds with the
id, status "rescheduled" and the updated record. -/
theorem C2_reschedule_success {apiKey hdr : Option String} {req : RescheduleRequest}
    {st : St} {old : Booking} {m : Slot}
    (hauth : requireKeyOk apiKey hdr = true)
    (hlook : lookupB st.bookings req.booking_id = some old)
    (hfind : st.slots.find? (rePred req) = some m) :
    reschedule apiKey req hdr st =
      (.ok { booking_id := req.booking_id, status := "rescheduled",
             booking := { old with start := req.new_start, «end» := req.new_end } },
       { st with
         slots := st.slots.eraseP (rePred req) ++ [({ start := old.start, «end» := old.«end», provider := old.provider } : Slot)],
         bookings := st.bookings.map (fun p => if p.1 == req.booking_id then (p.1, { old with start := req.new_start, «end» := req.new_end }) else p) }) := by
  have hm : m ∈ st.slots := List.mem_of_find?_eq_some hfind
  have he : st.slots.eraseP (rePred req) = st.slots.erase m :=
    eraseP_eq_erase_of_find? hfind
  rw [reschedule, if_pos hauth]
  simp only [hlook, hfind]
  rw [he, List.erase_append_left _ hm]

/-- A reschedule of the `wSt1` booking onto the NP Garcia 10:00 slot. -/
def wReOk : RescheduleRequest :=
  { booking_id := wUuid.take 8, new_start := "2026-01-01T10:00:00",
    new_end := "2026-01-01T10:20:00" }

/-- The booking record after the witness reschedule. -/
def wBooking2 : Booking :=
  { patient_ref := "p1", start := "2026-01-01T10:00:00",
    «end» := "2026-01-01T10:20:00", provider := "NP Garcia",
    visit_type := "checkup" }

/-- Witness for C2: rescheduling the booked NP Garcia appointment from 09:00
to the 10:00 NP Garcia slot. -/
theorem C2_witness :
    (reschedule wKey wReOk wKey wSt1).1
      = .ok { booking_id := wUuid.take 8, status := "rescheduled", booking := wBooking2 } := by
  have h1 : lookupB wSt1.bookings wReOk.booking_id = some (bookingOf wReqG) := by decide
  have h2 : wSt1.slots.find? (rePred wReOk)
      = some ({ start := "2026-01-01T10:00:00", «end» := "2026-01-01T10:20:00", provider := "NP Garcia" } : Slot) := by decide
  rw [C2_reschedule_success (by decide) h1 h2]
  decide

/-! ### C5: slot listing -/

/-- The claim's date filter: a present date keeps a slot iff its start
begins with the date string; an absent date keeps everything. -/
def keepDate : Option String → Slot → Bool
  | none, _ => true
  | some ds, s => s.start.startsWith ds

/-- The claim's provider filter: a present provider keeps a slot iff the
slot's provider equals it case-insensitively; an absent one keeps all. -/
def keepProvider : Option String → Slot → Bool
  | none, _ => true
  | some p, s => pyLower s.provider == pyLower p

/-- The listing result exactly as the claim describes it: the first 20 slots,
in collection order, satisfying both filters. -/
def listSpec (date provider : Option String) (slots : List Slot) : List Slot :=
  (slots.filter (fun s => keepDate date s && keepProvider provider s)).take 20

/-- C5 counterexample: with a present empty-string provider filter the code
ignores the filter and returns every slot, while the claim's filter
(case-insensitive equality with "") keeps none. -/
theorem C5_counterexample :
    (list_slots wKey none (some "") wKey (initState wD)).1
      ≠ .ok (listSpec none (some "") (initState wD).slots) := by decide

/-- C5 (amended): for an authorized listing whose provider filter is not the
empty string (an empty-string provider filter is treated as absent by the
code), the result is exactly the first 20 slots in collection order
satisfying the claim's date-prefix filter and case-insensitive provider
filter together. -/
theorem C5_list_slots {apiKey date provider hdr : Option String} {st : St}
    (hauth : requireKeyOk apiKey hdr = true)
    (hprov : provider ≠ some "") :
    list_slots apiKey date provider hdr st
      = (.ok (listSpec date provider st.slots), st) := by
  have hdate : (if strTruthy date then
        st.slots.filter (fun s => s.start.startsWith (date.getD ""))
      else st.slots)
      = st.slots.filter (keepDate date) := by
    cases date with
    | none =>
      rw [if_neg (by simp [strTruthy])]
      have hkd : keepDate none = (fun _ : Slot => true) := rfl
      rw [hkd, List.filter_true]
    | some ds =>
      by_cases hd : ds = ""
      · subst hd
        rw [if_neg (by simp [strTruthy])]
        have h1 : st.slots.filter (keepDate (some "")) = st.slots.filter (fun _ => true) :=
          List.filter_congr (fun x hx => startsWith_empty x.start)
        rw [h1, List.filter_true]
      · rw [if_pos (by simp [strTruthy, hd])]
        rfl
  have hprov2 : (if strTruthy provider then
        (st.slots.filter (keepDate date)).filter
          (fun s => pyLower s.provider == pyLower (provider.getD ""))
      else st.slots.filter (keepDate date))
      = (st.slots.filter (keepDate date)).filter (keepProvider provider) := by
    cases provider with
    | none =>
      rw [if_neg (by simp [strTruthy])]
      have hkp : keepProvider none = (fun _ : Slot => true) := rfl
      rw [hkp, List.filter_true]
    | some p =>
      have hp : p ≠ "" := fun he => hprov (by rw [he])
      rw [if_pos (by simp [strTruthy, hp])]
      rfl
  rw [list_slots, if_pos hauth]
  simp only [hdate]
  rw [hprov2, listSpec, List.filter_filter]
  rw [List.filter_congr (fun x hx => by rw [Bool.and_comm])]

/-- Witness for C5: listing with a date filter and an upper-cased provider
filter on the seeded store. -/
theorem C5_witness :
    list_slots wKey (some "2026-01-01") (some "DR. LEE") wKey (initState wD)
      = (.ok (listSpec (some "2026-01-01") (some "DR. LEE") (initState wD).slots),
         initState wD) :=
  C5_list_slots (by decide) (by decide)

/-! ### C1: no active booking's triple is in the slot pool -/

/-- C1: in every state reachable from the seeded store by successful book,
reschedule and cancel calls, no slot in the pool carries the same
start/end/provider triple as any stored booking. -/
theorem C1_booked_triple_not_in_pool {apiKey : Option String} {d : String} {st : St}
    (h : Reachable apiKey d st) :
    ∀ s ∈ st.slots, ∀ kb ∈ st.bookings,
      ¬(s.start = kb.2.start ∧ s.«end» = kb.2.«end» ∧ s.provider = kb.2.provider) := by
  intro s hs kb hkb hc
  have hinv := (reachable_inv h).1
  rw [sePairs] at hinv
  have hd := List.disjoint_of_nodup_append hinv
  refine hd (List.mem_map_of_mem pse hs) ?_
  have hpp : pse s = pbe kb := by
    rw [pse, pbe, hc.1, hc.2.1]
  rw [hpp]
  exact List.mem_map_of_mem pbe hkb

/-- The seeded Dr. Lee 09:00 slot with the witness date attached. -/
def wLee9 : Slot :=
  { start := "2026-01-01T09:00:00", «end» := "2026-01-01T09:40:00",
    provider := "Dr. Lee" }

/-- The response of the witness booking. -/
def wResp1 : BookResp :=
  { booking_id := wUuid.take 8, status := "created", booking := bookingOf wReqG }

/-- Witness for C1: after booking the NP Garcia 09:00 slot, the Dr. Lee
09:00 slot left in the pool does not match the stored booking's triple. -/
theorem C1_witness :
    ¬(wLee9.start = (bookingOf wReqG).start ∧ wLee9.«end» = (bookingOf wReqG).«end» ∧
      wLee9.provider = (bookingOf wReqG).provider) := by
  have hstep : Step wKey (initState wD) wSt1 :=
    Step.ofBook wReqG wUuid wKey wResp1 (by decide) (by decide)
  have hreach : Reachable wKey wD wSt1 := Relation.ReflTransGen.single hstep
  exact C1_booked_triple_not_in_pool hreach wLee9 (by decide)
    (wUuid.take 8, bookingOf wReqG) (by decide)

/-! ### C10: conservation of slot-pool size plus booking count -/

/-- C10: every successful mutating call conserves |SLOTS| + |BOOKINGS|:
a (uuid-fresh) book turns one slot into one booking, a cancel turns one
booking into one slot, and a reschedule both appends one slot and removes
one, leaving both sizes individually unchanged. -/
theorem C10_conservation (apiKey : Option String) :
    (∀ (req : BookRequest) (uuid : String) (hdr : Option String) (st : St)
       (resp : BookResp) (st' : St),
       lookupB st.bookings (uuid.take 8) = none →
       book apiKey req uuid hdr st = (.ok resp, st') →
       st'.slots.length + 1 = st.slots.length ∧
       st'.bookings.length = st.bookings.length + 1 ∧
       st'.slots.length + st'.bookings.length
         = st.slots.length + st.bookings.length) ∧
    (∀ (req : CancelRequest) (hdr : Option String) (st : St)
       (resp : CancelResp) (st' : St),
       cancel apiKey req hdr st = (.ok resp, st') →
       st'.bookings.length + 1 = st.bookings.length ∧
       st'.slots.length = st.slots.length + 1 ∧
       st'.slots.length + st'.bookings.length
         = st.slots.length + st.bookings.length) ∧
    (∀ (req : RescheduleRequest) (hdr : Option String) (st : St)
       (resp : BookResp) (st' : St),
       reschedule apiKey req hdr st = (.ok resp, st') →
       st'.slots.length = st.slots.length ∧
       st'.bookings.length = st.bookings.length ∧
       st'.slots.length + st'.bookings.length
         = st.slots.length + st.bookings.length) := by
  refine ⟨?_, ?_, ?_⟩
  · intro req uuid hdr st resp st' hfresh hok
    obtain ⟨hauth, m, hfind, hst', hresp⟩ := book_ok_elim hok
    subst hst'
    have hm : m ∈ st.slots := List.mem_of_find?_eq_some hfind
    have hpos : 0 < st.slots.length := List.length_pos_of_mem hm
    have h1 : (st.slots.erase m).length = st.slots.length - 1 :=
      List.length_erase_of_mem hm
    have h2 : (insertB st.bookings (uuid.take 8) (bookingOf req)).length
        = st.bookings.length + 1 := by
      rw [insertB_of_fresh _ hfresh, List.length_append, List.length_cons,
        List.length_nil]
    refine ⟨?_, ?_, ?_⟩ <;> simp only [h1, h2] <;> omega
  · intro req hdr st resp st' hok
    obtain ⟨hauth, old, hlook, hst', hresp⟩ := cancel_ok_elim hok
    subst hst'
    obtain ⟨l1, l2, hsplit, hl1⟩ := bookings_decomp hlook
    have herase : st.bookings.eraseP (fun p => p.1 == req.booking_id) = l1 ++ l2 := by
      rw [hsplit]
      exact eraseP_decomp (by simp) hl1
    have h1 : (st.bookings.eraseP (fun p => p.1 == req.booking_id)).length + 1
        = st.bookings.length := by
      rw [herase, hsplit]
      simp [List.length_append]
      omega
    have h2 : (st.slots ++
        [({ start := old.start, «end» := old.«end», provider := old.provider } : Slot)]).length
        = st.slots.length + 1 := by
      rw [List.length_append, List.length_cons, List.length_nil]
    refine ⟨?_, ?_, ?_⟩ <;> simp only [h1, h2] <;> omega
  · intro req hdr st resp st' hok
    obtain ⟨hauth, old, hlook, m, hfind, hst', hresp⟩ := reschedule_ok_elim hok
    subst hst'
    have hm : m ∈ st.slots ++
        [({ start := old.start, «end» := old.«end», provider := old.provider } : Slot)] :=
      List.mem_append_left _ (List.mem_of_find?_eq_some hfind)
    have hpos : 0 < st.slots.length + 1 := by omega
    have h1 : ((st.slots ++
        [({ start := old.start, «end» := old.«end», provider := old.provider } : Slot)]).erase m).length
        = st.slots.length := by
      rw [List.length_erase_of_mem hm, List.length_append, List.length_cons,
        List.length_nil]
      omega
    have h2 : (st.bookings.map (fun p =>
        if p.1 == req.booking_id then
          (p.1, { old with start := req.new_start, «end» := req.new_end }) else p)).length
        = st.bookings.length := List.length_map _ _
    refine ⟨?_, ?_, ?_⟩ <;> simp only [h1, h2]

/-- The store after cancelling the witness booking with `wCancelNote`. -/
def wStC : St := (cancel wKey wCancelNote wKey wSt1).2

/-- The store after rescheduling the witness booking with `wReOk`. -/
def wStR : St := (reschedule wKey wReOk wKey wSt1).2

/-- The response of the witness cancel. -/
def wRespC : CancelResp :=
  { booking_id := wUuid.take 8, status := "canceled", reason := "patient request" }

/-- The response of the witness reschedule. -/
def wRespR : BookResp :=
  { booking_id := wUuid.take 8, status := "rescheduled", booking := wBooking2 }

/-- Witness for C10 on a concrete book, cancel and reschedule. -/
theorem C10_witness :
    (wSt1.slots.length + 1 = (initState wD).slots.length ∧
     wSt1.bookings.length = (initState wD).bookings.length + 1 ∧
     wSt1.slots.length + wSt1.bookings.length
       = (initState wD).slots.length + (initState wD).bookings.length) ∧
    (wStC.bookings.length + 1 = wSt1.bookings.length ∧
     wStC.slots.length = wSt1.slots.length + 1 ∧
     wStC.slots.length + wStC.bookings.length
       = wSt1.slots.length + wSt1.bookings.length) ∧
    (wStR.slots.length = wSt1.slots.length ∧
     wStR.bookings.length = wSt1.bookings.length ∧
     wStR.slots.length + wStR.bookings.length
       = wSt1.slots.length + wSt1.bookings.length) :=
  ⟨(C10_conservation wKey).1 wReqG wUuid wKey (initState wD) wResp1 wSt1
     (by decide) (by decide),
   (C10_conservation wKey).2.1 wCancelNote wKey wSt1 wRespC wStC (by decide),
   (C10_conservation wKey).2.2 wReOk wKey wSt1 wRespR wStR (by decide)⟩

/-! ### C3: book -/

/-- After removing the first match of `p`, a predicate whose matches all
share the same projection finds nothing, provided the projections of the
list are distinct. -/
theorem find?_eraseP_none {α β : Type _} {f : α → β} [DecidableEq β]
    {p : α → Bool} {l : List α} {m : α}
    (hnd : (l.map f).Nodup) (hfind : l.find? p = some m)
    (hps : ∀ s, p s = true → f s = f m) :
    (l.eraseP p).find? p = none := by
  have hpm : p m = true := List.find?_some hfind
  obtain ⟨l1, l2, hsplit, hl1⟩ := find?_decomp hfind
  subst hsplit
  rw [eraseP_decomp hpm hl1]
  rw [List.find?_eq_none]
  intro x hx
  rcases List.mem_append.mp hx with h1 | h2
  · simp [hl1 x h1]
  · intro hpx
    have hfx := hps x hpx
    simp only [List.map_append, List.map_cons] at hnd
    have hnd2 := (List.nodup_append.mp hnd).2.1
    rw [List.nodup_cons] at hnd2
    exact hnd2.1 (hfx ▸ List.mem_map_of_mem f h2)

/-- C3: booking with no exactly-matching slot fails with the 400
"Slot not available" error and changes nothing; with a match, exactly the
first matching slot is removed, the request's record is stored under the
fresh 8-character id, the response carries the id, status "created" and the
record — and booking the same triple again (authorized, any patient) then
fails with the same client error. -/
theorem C3_book {apiKey hdr : Option String} (req : BookRequest) (uuid : String)
    (st : St)
    (hauth : requireKeyOk apiKey hdr = true)
    (hinv : Inv st)
    (hfresh : lookupB st.bookings (uuid.take 8) = none) :
    (st.slots.find? (bookPred req) = none →
      book apiKey req uuid hdr st = (.error (.badRequest "Slot not available"), st)) ∧
    (∀ m, st.slots.find? (bookPred req) = some m →
      book apiKey req uuid hdr st =
        (.ok { booking_id := uuid.take 8, status := "created",
               booking := bookingOf req },
         { st with
           slots := st.slots.eraseP (bookPred req),
           bookings := st.bookings ++ [(uuid.take 8, bookingOf req)] }) ∧
      (∀ (req2 : BookRequest) (uuid2 : String) (hdr2 : Option String),
        requireKeyOk apiKey hdr2 = true →
        req2.start = req.start → req2.«end» = req.«end» →
        req2.provider = req.provider →
        (book apiKey req2 uuid2 hdr2 (book apiKey req uuid hdr st).2).1
          = .error (.badRequest "Slot not available"))) := by
  constructor
  · intro hnone
    rw [book, if_pos hauth]
    simp only [hnone]
  · intro m hfind
    have he : st.slots.eraseP (bookPred req) = st.slots.erase m :=
      eraseP_eq_erase_of_find? hfind
    have hins : insertB st.bookings (uuid.take 8) (bookingOf req)
        = st.bookings ++ [(uuid.take 8, bookingOf req)] :=
      insertB_of_fresh _ hfresh
    have hbook : book apiKey req uuid hdr st =
        (.ok { booking_id := uuid.take 8, status := "created",
               booking := bookingOf req },
         { st with
           slots := st.slots.eraseP (bookPred req),
           bookings := st.bookings ++ [(uuid.take 8, bookingOf req)] }) := by
      rw [book, if_pos hauth]
      simp only [hfind]
      rw [he, hins]
    refine ⟨hbook, ?_⟩
    intro req2 uuid2 hdr2 hauth2 h1 h2 h3
    rw [hbook]
    rw [book, if_pos hauth2]
    have hpp : bookPred req2 = bookPred req := by
      funext x
      rw [bookPred, bookPred, h1, h2, h3]
    have hmapS : (st.slots.map pse).Nodup := by
      have hp := hinv.1
      rw [sePairs] at hp
      exact (List.nodup_append.mp hp).1
    have hps : ∀ x, bookPred req x = true → pse x = pse m := by
      intro x hx
      have hm := List.find?_some hfind
      rw [bookPred] at hx hm
      simp only [Bool.and_eq_true, beq_iff_eq] at hx hm
      rw [pse, pse, hx.1.1, hx.1.2, hm.1.1, hm.1.2]
    have hnone2 : (st.slots.eraseP (bookPred req)).find? (bookPred req) = none :=
      find?_eraseP_none hmapS hfind hps
    simp only [hpp, hnone2]

/-- A second booking attempt at the same slot triple by another patient. -/
def wReqG2 : BookRequest :=
  { patient_ref := "p2", start := "2026-01-01T09:00:00",
    «end» := "2026-01-01T09:20:00", provider := "NP Garcia",
    visit_type := "new patient" }

/-- The seeded NP Garcia 09:00 slot with the witness date attached. -/
def wGarcia9 : Slot :=
  { start := "2026-01-01T09:00:00", «end» := "2026-01-01T09:20:00",
    provider := "NP Garcia" }

/-- Witness for C3: booking the NP Garcia 09:00 slot twice; the second
attempt fails with "Slot not available". -/
theorem C3_witness :
    (book wKey wReqG2 wUuid2 wKey (book wKey wReqG wUuid wKey (initState wD)).2).1
      = .error (.badRequest "Slot not available") := by
  have h := (@C3_book wKey wKey wReqG wUuid (initState wD)
    (by decide) (by decide) (by decide)).2 wGarcia9 (by decide)
  exact h.2 wReqG2 wUuid2 wKey (by decide) rfl rfl rfl

/-! ### C9: the seeded concrete scenario -/

/-- The tomorrow-09:00 Dr. Lee slot of the scenario (date `d`). -/
def lee9Slot (d : String) : Slot :=
  { start := d ++ "T09:00:00", «end» := d ++ "T09:40:00", provider := "Dr. Lee" }

/-- The book request of the scenario. -/
def lee9Req (d patient vt : String) : BookRequest :=
  { patient_ref := patient, start := d ++ "T09:00:00",
    «end» := d ++ "T09:40:00", provider := "Dr. Lee", visit_type := vt }

/-- A listing with neither filter returns the first 20 slots as they are. -/
theorem list_slots_nofilter {apiKey hdr : Option String} (st : St)
    (hauth : requireKeyOk apiKey hdr = true) :
    list_slots apiKey none none hdr st = (.ok (st.slots.take 20), st) := by
  rw [list_slots, if_pos hauth]
  rfl

/-- C9: seeding yields exactly 12 slots including tomorrow's 09:00–09:40
Dr. Lee slot; booking that triple succeeds with an 8-character booking id,
the triple is then absent from the slot listing, and cancelling that
booking id makes it reappear in the listing. -/
theorem C9_seed_book_cancel (apiKey hdr : Option String) (d uuid patient vt : String)
    (hauth : requireKeyOk apiKey hdr = true) (hu : uuid.length = 36) :
    (seedSlots d).length = 12 ∧
    lee9Slot d ∈ seedSlots d ∧
    (book apiKey (lee9Req d patient vt) uuid hdr (initState d)).1
      = .ok { booking_id := uuid.take 8, status := "created",
              booking := bookingOf (lee9Req d patient vt) } ∧
    (uuid.take 8).length = 8 ∧
    (∃ l, (list_slots apiKey none none hdr
        (book apiKey (lee9Req d patient vt) uuid hdr (initState d)).2).1 = .ok l ∧
      lee9Slot d ∉ l) ∧
    (∃ l2, (list_slots apiKey none none hdr
        (cancel apiKey { booking_id := uuid.take 8, reason := none } hdr
          (book apiKey (lee9Req d patient vt) uuid hdr (initState d)).2).2).1
        = .ok l2 ∧
      lee9Slot d ∈ l2) := by
  generalize hbid : uuid.take 8 = bid
  have hseed : seedSlots d
      = lee9Slot d :: List.map (mkSeedSlot d) (seedSuffixes.drop 1) := by
    rw [seedSlots_eq]
    rfl
  have hlen11 : (List.map (mkSeedSlot d) (seedSuffixes.drop 1)).length = 11 := by
    rw [List.length_map]
    rfl
  have hfind : (initState d).slots.find? (bookPred (lee9Req d patient vt))
      = some (lee9Slot d) := by
    show (seedSlots d).find? (bookPred (lee9Req d patient vt)) = _
    rw [hseed]
    rw [List.find?_cons_of_pos _ (by simp [bookPred, lee9Req, lee9Slot])]
  have herase : (initState d).slots.erase (lee9Slot d)
      = List.map (mkSeedSlot d) (seedSuffixes.drop 1) := by
    show (seedSlots d).erase (lee9Slot d) = _
    rw [hseed]
    exact List.erase_cons_head _ _
  have hbook : book apiKey (lee9Req d patient vt) uuid hdr (initState d)
      = (.ok { booking_id := bid, status := "created",
               booking := bookingOf (lee9Req d patient vt) },
         { slots := List.map (mkSeedSlot d) (seedSuffixes.drop 1),
           bookings := [(bid, bookingOf (lee9Req d patient vt))],
           messages := [] }) := by
    rw [book, if_pos hauth]
    simp only [hfind]
    rw [herase, hbid]
    rfl
  have habsent : lee9Slot d ∉ List.map (mkSeedSlot d) (seedSuffixes.drop 1) := by
    intro hmem
    obtain ⟨t, ht, heq⟩ := List.mem_map.mp hmem
    have heq2 : mkSeedSlot d t
        = mkSeedSlot d ("T09:00:00", "T09:40:00", "Dr. Lee") := heq
    have ht0 := mkSeedSlot_inj heq2
    subst ht0
    revert ht
    decide
  have hlook1 : lookupB [(bid, bookingOf (lee9Req d patient vt))] (bid)
      = some (bookingOf (lee9Req d patient vt)) := by
    simp [lookupB]
  have hcancel : (cancel apiKey { booking_id := bid, reason := none } hdr
      { slots := List.map (mkSeedSlot d) (seedSuffixes.drop 1),
        bookings := [(bid, bookingOf (lee9Req d patient vt))],
        messages := [] }).2
      = { slots := List.map (mkSeedSlot d) (seedSuffixes.drop 1) ++ [lee9Slot d],
          bookings := [], messages := [] } := by
    rw [cancel, if_pos hauth]
    simp only [hlook1]
    simp [List.eraseP_cons, bookingOf, lee9Req, lee9Slot]
  refine ⟨?_, ?_, ?_, ?_, ?_, ?_⟩
  · rw [hseed]
    simp only [List.length_cons, hlen11]
  · rw [hseed]
    exact List.mem_cons_self _ _
  · rw [hbook]
  · rw [← hbid]
    exact length_take_8 (by omega)
  · refine ⟨List.map (mkSeedSlot d) (seedSuffixes.drop 1), ?_, habsent⟩
    rw [hbook]
    rw [list_slots_nofilter _ hauth]
    show Except.ok (List.take 20 _) = _
    rw [List.take_of_length_le (by rw [hlen11]; omega)]
  · refine ⟨List.map (mkSeedSlot d) (seedSuffixes.drop 1) ++ [lee9Slot d], ?_, ?_⟩
    · rw [hbook]
      show (list_slots apiKey none none hdr (cancel apiKey _ hdr _).2).1 = _
      rw [hcancel]
      rw [list_slots_nofilter _ hauth]
      show Except.ok (List.take 20 _) = _
      rw [List.take_of_length_le
        (by rw [List.length_append, hlen11]; simp)]
    · exact List.mem_append_right _ (List.mem_singleton.mpr rfl)

/-- Witness for C9 at the concrete date, key and uuid. -/
theorem C9_witness : (seedSlots wD).length = 12 :=
  (C9_seed_book_cancel wKey wKey wD wUuid "p1" "screening" (by decide) (by decide)).1

end Careflow
